import Mathlib

/-!
Shallow embedding of the durak-cards lobby routes (src/unnamed/part_000,
an express router over the Lobby mongo model) and proofs about the
admission, slot-placement, name-check and deletion logic.

Modelling conventions:
* A lobby document is the record of fields the routes read or write.
* The mongo collection is a list of lobby documents; `Lobby.findOne({pin})`
  is a first-match search, `Lobby.deleteOne({pin})` erases the first match,
  and `findOneAndUpdate` with a `$set` on players rewrites the found
  document's players array in place.
* Joi validations are translated predicate-for-predicate: a passphrase
  field passes `Joi.string().length(4)` iff it is absent or exactly four
  characters; a name passes the anonymous-name validator iff it is present,
  1..20 characters and contains no whitespace.
* JavaScript truthiness on `Array.prototype.find` becomes `List.any`;
  `Array.prototype.findIndex` becomes `List.findIdx` (JS yields -1 when no
  element matches and the write at index -1 leaves every array element
  unchanged; `List.findIdx` yields the length there and `List.set` past the
  end is likewise the identity, so the two agree on the players array).
-/

inductive GameStatus
  | WAITING
  | PLAYING
  | CLOSED
deriving DecidableEq, Repr

structure Player where
  name : String
  socketId : Option String
  registered : Bool
  confirmed : Bool
deriving DecidableEq, Repr

structure Lobby where
  pin : String
  maxPlayers : Nat
  roundTimeout : Nat
  with2FA : Bool
  passphrase : Option String
  status : GameStatus
  owner : String
  players : List Player
deriving DecidableEq, Repr

/-- Body and auth data of a POST /:pin/join request: the optional
passphrase from the body, the optional registered identity name decoded
from the token by the withAuth middleware, and the optional body name. -/
structure JoinRequest where
  passphrase : Option String
  token : Option String
  name : Option String
deriving DecidableEq, Repr

/-- Rejection reasons of the join route, one per early-return program
point: notFound (no lobby for the pin), badRequest (passphrase fails the
Joi shape check), lobbyFull (capacity or status gate), invalidPassphrase
(2FA mismatch), alreadyJoined (registered duplicate), badName (anonymous
name fails its validator), nameTaken (checkIfNameFree says no). -/
inductive JoinError
  | notFound
  | badRequest
  | lobbyFull
  | invalidPassphrase
  | alreadyJoined
  | badName
  | nameTaken
deriving DecidableEq, Repr

/-- Modelled from the spec: createTokens (imported from ../authentication,
outside the excerpt) mints the access/refresh credential pair encoding
the joiner's name and the lobby pin; only the encoded identity is
modelled, the signing is opaque. -/
structure Credentials where
  name : String
  pin : String
deriving DecidableEq, Repr

def createTokens (name : String) (pin : String) : Credentials :=
  { name := name, pin := pin }

/-- Outcome of an accepted join: the freshly placed slot, the mutated
players array that gets persisted, and the credentials spread into the
response (present iff the joiner was anonymous). -/
structure JoinSuccess where
  newPlayer : Player
  players : List Player
  credentials : Option Credentials
deriving DecidableEq, Repr

inductive JoinResult
  | reject : JoinError → JoinResult
  | accept : JoinSuccess → JoinResult
deriving DecidableEq, Repr

/-- The confirmed players of a lobby: lobby.players.filter(p => p.confirmed). -/
def confirmedPlayers (lobby : Lobby) : List Player :=
  lobby.players.filter (fun p => p.confirmed)

/-- Joi.string().length(4) on the optional body passphrase: an absent
field passes (the validator is not required), a present one passes iff it
is exactly 4 characters. -/
def passphraseShapeOk (pp : Option String) : Bool :=
  match pp with
  | none => true
  | some s => s.length == 4

/-- Joi.string().regex(no-whitespace, 1..20).min(1).max(20).required() on
the anonymous joiner's name. -/
def nameShapeOk (name : String) : Bool :=
  decide (1 ≤ name.length) && decide (name.length ≤ 20)
    && name.data.all (fun c => !c.isWhitespace)

/-- Modelled from the spec: checkIfNameFree (imported from ../utils/lobby,
outside the excerpt) is true iff no confirmed slot in lobby.players holds
exactly the given name (exact, case-sensitive comparison). -/
def checkIfNameFree (lobby : Lobby) (name : String) : Bool :=
  !(lobby.players.any (fun p => p.confirmed && p.name == name))

/-- Slot placement and response assembly of the join route (lines
352-376): build the unconfirmed slot, overwrite the first unconfirmed
slot when the array is physically full, otherwise append, and include
the token pair in the response iff the joiner is anonymous. -/
def placeSlot (lobby : Lobby) (name : String) (registered : Bool) : JoinResult :=
  let player : Player :=
    { name := name, socketId := none, registered := registered, confirmed := false }
  let newPlayers :=
    if lobby.players.length = lobby.maxPlayers then
      lobby.players.set (lobby.players.findIdx (fun p => !p.confirmed)) player
    else
      lobby.players ++ [player]
  .accept
    { newPlayer := player
      players := newPlayers
      credentials := if registered then none else some (createTokens name lobby.pin) }

/-- The join route's decision on a fetched lobby (POST /:pin/join, lines
276-376, everything after the findOne): passphrase shape check, capacity
and status gate, 2FA passphrase check, then the registered-duplicate
check or the anonymous name checks, then slot placement. -/
def admitJoin (lobby : Lobby) (req : JoinRequest) : JoinResult :=
  if passphraseShapeOk req.passphrase = false then
    .reject .badRequest
  else if (confirmedPlayers lobby).length = lobby.maxPlayers
      ∨ lobby.status ≠ GameStatus.WAITING then
    .reject .lobbyFull
  else if lobby.with2FA = true ∧ lobby.passphrase ≠ req.passphrase then
    .reject .invalidPassphrase
  else
    match req.token with
    | some tokenName =>
      if (lobby.players.filter (fun p => p.registered)).any
          (fun p => p.name == tokenName) then
        .reject .alreadyJoined
      else
        placeSlot lobby tokenName true
    | none =>
      match req.name with
      | none => .reject .badName
      | some n =>
        if nameShapeOk n = false then
          .reject .badName
        else if checkIfNameFree lobby n = false then
          .reject .nameTaken
        else
          placeSlot lobby n false

/-- Lobby.findOne({pin}): first document whose pin matches. -/
def findByPin (repo : List Lobby) (pin : String) : Option Lobby :=
  repo.find? (fun l => l.pin == pin)

/-- Lobby.findOneAndUpdate with a $set of the players array: rewrite the
players of the first document with the given pin, leave the rest alone. -/
def setPlayersAt (repo : List Lobby) (pin : String) (ps : List Player) : List Lobby :=
  match repo with
  | [] => []
  | l :: rest =>
    if l.pin == pin then { l with players := ps } :: rest
    else l :: setPlayersAt rest pin ps

/-- The full join route including the repository: findOne (notFound when
absent), admitJoin, and on accept the persistence of the mutated players
array; every rejection returns before the update call. -/
def joinRoute (repo : List Lobby) (pin : String) (req : JoinRequest) :
    JoinResult × List Lobby :=
  match findByPin repo pin with
  | none => (.reject .notFound, repo)
  | some lobby =>
    match admitJoin lobby req with
    | .reject e => (.reject e, repo)
    | .accept s => (.accept s, setPlayersAt repo pin s.players)

inductive NameCheckResult
  | notFound
  | badRequest
  | taken
  | free
deriving DecidableEq, Repr

/-- POST /:pin/name (lines 380-413): findOne, reject an absent name
field, then report taken or free via checkIfNameFree. -/
def nameRoute (repo : List Lobby) (pin : String) (name : Option String) :
    NameCheckResult :=
  match findByPin repo pin with
  | none => .notFound
  | some lobby =>
    match name with
    | none => .badRequest
    | some n =>
      if checkIfNameFree lobby n = false then .taken else .free

inductive InspectResult
  | notFound
  | lobbyFull
  | joinable : Bool → InspectResult
deriving DecidableEq, Repr

/-- GET /:pin (lines 142-174): findOne, then the joinability gate, then
the reduced view (whether 2FA is on). -/
def inspectRoute (repo : List Lobby) (pin : String) : InspectResult :=
  match findByPin repo pin with
  | none => .notFound
  | some lobby =>
    if (confirmedPlayers lobby).length = lobby.maxPlayers
        ∨ lobby.status ≠ GameStatus.WAITING then
      .lobbyFull
    else
      .joinable lobby.with2FA

structure BroadcastEvent where
  pin : String
  reason : String
deriving DecidableEq, Repr

inductive DeleteResult
  | notFound
  | unauthorized
  | serverError
  | deleted
deriving DecidableEq, Repr

/-- DELETE /:pin (lines 198-238): findOne, the owner gate, then
deleteOne; dbOk models whether the repository delete callback succeeds
(an external outcome). The closure broadcast with reason lobby_closed is
emitted only after a successful delete. -/
def deleteRoute (repo : List Lobby) (pin : String) (requesterId : String)
    (dbOk : Bool) : DeleteResult × List Lobby × List BroadcastEvent :=
  match findByPin repo pin with
  | none => (.notFound, repo, [])
  | some lobby =>
    if lobby.owner ≠ requesterId then
      (.unauthorized, repo, [])
    else if dbOk then
      (.deleted, repo.eraseP (fun l => l.pin == pin),
        [{ pin := pin, reason := "lobby_closed" }])
    else
      (.serverError, repo, [])

/-! Helper lemmas shared by several claims. -/

/-- Setting a slot to an element that fails the predicate never increases
the countP of that predicate. -/
theorem countP_set_le {α : Type} (p : α → Bool) (a : α) (ha : p a = false) :
    ∀ (l : List α) (i : Nat), (l.set i a).countP p ≤ l.countP p := by
  intro l
  induction l with
  | nil => intro i; simp
  | cons x xs ih =>
    intro i
    cases i with
    | zero =>
      show (a :: xs).countP p ≤ (x :: xs).countP p
      simp only [List.countP_cons, ha, if_false]
      cases hx : p x <;> simp [hx]
    | succ j =>
      show (x :: xs.set j a).countP p ≤ (x :: xs).countP p
      simp only [List.countP_cons]
      exact Nat.add_le_add_right (ih j) _

/-- An accepted join passed the passphrase shape check, the capacity
check and the status check. -/
theorem accept_gate {lobby : Lobby} {req : JoinRequest} {s : JoinSuccess}
    (h : admitJoin lobby req = .accept s) :
    passphraseShapeOk req.passphrase = true ∧
    (confirmedPlayers lobby).length ≠ lobby.maxPlayers ∧
    lobby.status = GameStatus.WAITING := by
  unfold admitJoin at h
  split at h
  · simp at h
  · split at h
    · simp at h
    · rename_i h1 h2
      refine ⟨by simpa using h1, fun hc => h2 (Or.inl hc), ?_⟩
      by_contra hs
      exact h2 (Or.inr hs)

/-- Inversion of placeSlot: the shape of the accepted result. -/
theorem placeSlot_accept {lobby : Lobby} {name : String} {registered : Bool}
    {s : JoinSuccess} (h : placeSlot lobby name registered = .accept s) :
    s.newPlayer =
      { name := name, socketId := none, registered := registered, confirmed := false } ∧
    s.credentials = (if registered then none else some (createTokens name lobby.pin)) ∧
    s.players =
      (if lobby.players.length = lobby.maxPlayers then
        lobby.players.set (lobby.players.findIdx (fun p => !p.confirmed)) s.newPlayer
      else lobby.players ++ [s.newPlayer]) := by
  simp only [placeSlot] at h
  injection h with h'
  subst h'
  exact ⟨rfl, rfl, rfl⟩

/-- Inversion of an accepted join: the placed slot is unconfirmed, its
registered flag mirrors the presence of a token, the response credentials
are present exactly for anonymous joiners, and the persisted players
array is the overwrite-or-append of the snapshot. -/
theorem accept_fields {lobby : Lobby} {req : JoinRequest} {s : JoinSuccess}
    (h : admitJoin lobby req = .accept s) :
    s.newPlayer.socketId = none ∧
    s.newPlayer.registered = req.token.isSome ∧
    s.newPlayer.confirmed = false ∧
    s.credentials =
      (if req.token.isSome then none
       else some (createTokens s.newPlayer.name lobby.pin)) ∧
    s.players =
      (if lobby.players.length = lobby.maxPlayers then
        lobby.players.set (lobby.players.findIdx (fun p => !p.confirmed)) s.newPlayer
      else lobby.players ++ [s.newPlayer]) := by
  unfold admitJoin at h
  split at h
  · simp at h
  split at h
  · simp at h
  split at h
  · simp at h
  split at h
  · rename_i tokenName heq
    split at h
    · simp at h
    · rcases placeSlot_accept h with ⟨hp, hc, hps⟩
      refine ⟨by simp [hp], by simp [hp, heq], by simp [hp], ?_, hps⟩
      simpa [heq] using hc
  · rename_i heq
    split at h
    · simp at h
    · rename_i n hn
      split at h
      · simp at h
      split at h
      · simp at h
      rcases placeSlot_accept h with ⟨hp, hc, hps⟩
      refine ⟨by simp [hp], by simp [hp, heq], by simp [hp], ?_, hps⟩
      simpa [heq, hp] using hc

/-- When the players array is physically full but the confirmed count is
not the capacity, some slot is unconfirmed, so the findIdx scan for the
first unconfirmed slot lands strictly inside the array. -/
theorem findIdx_unconfirmed_lt (lobby : Lobby)
    (hne : (confirmedPlayers lobby).length ≠ lobby.maxPlayers)
    (hlen : lobby.players.length = lobby.maxPlayers) :
    lobby.players.findIdx (fun p => !p.confirmed) < lobby.players.length := by
  apply List.findIdx_lt_length_of_exists
  by_contra hall
  push_neg at hall
  have hfix : lobby.players.filter (fun p => p.confirmed) = lobby.players := by
    apply List.filter_eq_self.mpr
    intro a ha
    have := hall a ha
    simpa using this
  apply hne
  unfold confirmedPlayers
  rw [hfix, hlen]

/-- The name check fails exactly when some confirmed slot holds the name. -/
theorem checkIfNameFree_false_iff (lobby : Lobby) (n : String) :
    checkIfNameFree lobby n = false ↔
      ∃ p ∈ lobby.players, p.confirmed = true ∧ p.name = n := by
  simp [checkIfNameFree, List.any_eq_true]

/-- After erasing the first match from a list holding at most one match,
no match is left to find. -/
theorem find?_eraseP_none {α : Type} (p : α → Bool) :
    ∀ (l : List α), (l.filter p).length ≤ 1 →
      (l.eraseP p).find? p = none := by
  intro l
  induction l with
  | nil => intro h; simp
  | cons x xs ih =>
    intro h
    by_cases hx : p x
    · rw [List.eraseP_cons_of_pos hx]
      rw [List.find?_eq_none]
      intro y hy hpy
      have hnil : xs.filter p = [] := by
        rw [List.filter_cons_of_pos hx] at h
        simp only [List.length_cons] at h
        exact List.length_eq_zero.mp (by omega)
      have := List.filter_eq_nil_iff.mp hnil y hy
      exact this hpy
    · rw [List.eraseP_cons_of_neg hx]
      rw [List.find?_cons_of_neg _ hx]
      apply ih
      simpa [List.filter_cons, hx] using h

/-- C9: whenever the slot-placement branch for players.length ==
maxPlayers is reached on an accepted join, the earlier capacity gate
guarantees an unconfirmed slot exists, so the first-unconfirmed-slot
search yields an in-bounds index and never writes at index -1. -/
theorem c9_overwrite_index_in_bounds (lobby : Lobby) (req : JoinRequest)
    (s : JoinSuccess) (h : admitJoin lobby req = .accept s)
    (hlen : lobby.players.length = lobby.maxPlayers) :
    lobby.players.findIdx (fun p => !p.confirmed) < lobby.players.length :=
  findIdx_unconfirmed_lt lobby (accept_gate h).2.1 hlen

theorem c9_overwrite_index_in_bounds_witness :
    ([⟨"a", none, true, true⟩, ⟨"g", none, false, false⟩] : List Player).findIdx
        (fun p => !p.confirmed) <
      ([⟨"a", none, true, true⟩, ⟨"g", none, false, false⟩] : List Player).length :=
  c9_overwrite_index_in_bounds
    ⟨"900009", 2, 120, false, none, .WAITING, "u",
      [⟨"a", none, true, true⟩, ⟨"g", none, false, false⟩]⟩
    ⟨none, none, some "carol"⟩
    ⟨⟨"carol", none, false, false⟩,
      [⟨"a", none, true, true⟩, ⟨"carol", none, false, false⟩],
      some ⟨"carol", "900009"⟩⟩
    (by decide) (by decide)

/-- C7: an accepted join carries access/refresh credentials in the
response iff the joiner is anonymous; a registered joiner receives no
new credential. -/
theorem c7_credentials_iff_anonymous (lobby : Lobby) (req : JoinRequest)
    (s : JoinSuccess) (h : admitJoin lobby req = .accept s) :
    (s.credentials.isSome = true ↔ req.token = none) ∧
    (∀ t, req.token = some t → s.credentials = none) ∧
    (req.token = none →
      s.credentials = some (createTokens s.newPlayer.name lobby.pin)) := by
  have hf := (accept_fields h).2.2.2.1
  cases htok : req.token with
  | none =>
    rw [htok] at hf
    simp only [Option.isSome_none, Bool.false_eq_true, if_false] at hf
    simp [hf, htok]
  | some t =>
    rw [htok] at hf
    simp only [Option.isSome_some, if_true] at hf
    simp [hf, htok]

theorem c7_credentials_iff_anonymous_witness :
    ((⟨⟨"nina", none, false, false⟩,
        [⟨"o", none, true, true⟩, ⟨"nina", none, false, false⟩],
        some ⟨"nina", "700007"⟩⟩ : JoinSuccess).credentials.isSome = true ↔
      (⟨none, none, some "nina"⟩ : JoinRequest).token = none) :=
  (c7_credentials_iff_anonymous
    ⟨"700007", 3, 120, false, none, .WAITING, "u", [⟨"o", none, true, true⟩]⟩
    ⟨none, none, some "nina"⟩
    ⟨⟨"nina", none, false, false⟩,
      [⟨"o", none, true, true⟩, ⟨"nina", none, false, false⟩],
      some ⟨"nina", "700007"⟩⟩
    (by decide)).1

/-- C4: an accepted join either overwrites the first unconfirmed slot
(when the array is physically full) keeping the length, or appends the
new slot; in both cases every other slot of the array is unchanged. -/
theorem c4_slot_placement_frame (lobby : Lobby) (req : JoinRequest)
    (s : JoinSuccess) (h : admitJoin lobby req = .accept s) :
    (lobby.players.length = lobby.maxPlayers →
      s.players = lobby.players.set
          (lobby.players.findIdx (fun p => !p.confirmed)) s.newPlayer ∧
        s.players.length = lobby.players.length ∧
        ∀ j, j ≠ lobby.players.findIdx (fun p => !p.confirmed) →
          s.players[j]? = lobby.players[j]?) ∧
    (lobby.players.length ≠ lobby.maxPlayers →
      s.players = lobby.players ++ [s.newPlayer] ∧
        ∀ j, j < lobby.players.length → s.players[j]? = lobby.players[j]?) := by
  have hps := (accept_fields h).2.2.2.2
  constructor
  · intro hlen
    rw [if_pos hlen] at hps
    refine ⟨hps, by rw [hps, List.length_set], ?_⟩
    intro j hj
    rw [hps]
    exact List.getElem?_set_ne (Ne.symm hj)
  · intro hlen
    rw [if_neg hlen] at hps
    refine ⟨hps, ?_⟩
    intro j hj
    rw [hps]
    exact List.getElem?_append_left hj

theorem c4_slot_placement_frame_witness :
    (⟨⟨"kim", none, false, false⟩,
        [⟨"o", none, true, true⟩, ⟨"kim", none, false, false⟩],
        some ⟨"kim", "400004"⟩⟩ : JoinSuccess).players =
      (⟨"400004", 4, 120, false, none, .WAITING, "u",
        [⟨"o", none, true, true⟩]⟩ : Lobby).players ++
        [(⟨⟨"kim", none, false, false⟩,
          [⟨"o", none, true, true⟩, ⟨"kim", none, false, false⟩],
          some ⟨"kim", "400004"⟩⟩ : JoinSuccess).newPlayer] :=
  ((c4_slot_placement_frame
    ⟨"400004", 4, 120, false, none, .WAITING, "u", [⟨"o", none, true, true⟩]⟩
    ⟨none, none, some "kim"⟩
    ⟨⟨"kim", none, false, false⟩,
      [⟨"o", none, true, true⟩, ⟨"kim", none, false, false⟩],
      some ⟨"kim", "400004"⟩⟩
    (by decide)).2 (by decide)).1

/-- C5: every rejection of the join route returns before the repository
update, so the stored collection is unchanged on any reject. -/
theorem c5_reject_no_write (repo : List Lobby) (pin : String)
    (req : JoinRequest) (e : JoinError)
    (h : (joinRoute repo pin req).1 = .reject e) :
    (joinRoute repo pin req).2 = repo := by
  rcases hf : findByPin repo pin with _ | lobby
  · simp [joinRoute, hf]
  · rcases ha : admitJoin lobby req with e' | s
    · simp [joinRoute, hf, ha]
    · exfalso
      simp [joinRoute, hf, ha] at h

theorem c5_reject_no_write_witness :
    (joinRoute
      [⟨"550055", 1, 60, false, none, .WAITING, "u", [⟨"solo", none, true, true⟩]⟩]
      "550055" ⟨none, none, some "max"⟩).2 =
      [⟨"550055", 1, 60, false, none, .WAITING, "u", [⟨"solo", none, true, true⟩]⟩] :=
  c5_reject_no_write
    [⟨"550055", 1, 60, false, none, .WAITING, "u", [⟨"solo", none, true, true⟩]⟩]
    "550055" ⟨none, none, some "max"⟩ .lobbyFull (by decide)

/-- C1 (counterexample): the code's duplicate check filters on
registered only, so a registered name held by an unconfirmed registered
slot still triggers the AlreadyJoined rejection, although no slot that
is both registered and confirmed holds the name. -/
theorem c1_counterexample :
    admitJoin
      ⟨"100001", 3, 120, false, none, .WAITING, "uid-bob",
        [⟨"bob", none, true, true⟩, ⟨"alice", none, true, false⟩]⟩
      ⟨none, some "alice", none⟩ = .reject .alreadyJoined ∧
    ([⟨"bob", none, true, true⟩, ⟨"alice", none, true, false⟩] : List Player).all
      (fun p => !(p.registered && p.confirmed && p.name == "alice")) = true := by
  decide

/-- C1 (amended): once the earlier checks pass, a join presenting a
registered identity is rejected with AlreadyJoined exactly when the
identity's name occupies a registered slot, whether or not that slot is
confirmed. -/
theorem c1_alreadyJoined_iff_registered_slot (lobby : Lobby) (req : JoinRequest)
    (t : String) (htok : req.token = some t)
    (hshape : passphraseShapeOk req.passphrase = true)
    (hcap : (confirmedPlayers lobby).length ≠ lobby.maxPlayers)
    (hst : lobby.status = GameStatus.WAITING)
    (hpp : lobby.with2FA = true → lobby.passphrase = req.passphrase) :
    (admitJoin lobby req = .reject .alreadyJoined ↔
      ∃ p ∈ lobby.players, p.registered = true ∧ p.name = t) := by
  have hc3 : ¬(lobby.with2FA = true ∧ lobby.passphrase ≠ req.passphrase) :=
    fun hx => hx.2 (hpp hx.1)
  by_cases hd : (lobby.players.filter (fun p => p.registered)).any
      (fun p => p.name == t) = true
  · constructor
    · intro _
      rcases List.any_eq_true.mp hd with ⟨p, hp, hname⟩
      rcases List.mem_filter.mp hp with ⟨hmem, hreg⟩
      exact ⟨p, hmem, by simpa using hreg, by simpa using hname⟩
    · intro _
      simp [admitJoin, hshape, hcap, hst, hc3, htok, hd]
  · constructor
    · intro hrej
      simp [admitJoin, hshape, hcap, hst, hc3, htok, hd, placeSlot] at hrej
    · rintro ⟨p, hmem, hreg, hname⟩
      exact absurd
        (List.any_eq_true.mpr
          ⟨p, List.mem_filter.mpr ⟨hmem, by simpa using hreg⟩, by simp [hname]⟩)
        hd

theorem c1_alreadyJoined_iff_registered_slot_witness :
    admitJoin
      ⟨"110011", 3, 120, false, none, .WAITING, "u", [⟨"zoe", none, true, true⟩]⟩
      ⟨none, some "zoe", none⟩ = .reject .alreadyJoined :=
  (c1_alreadyJoined_iff_registered_slot
    ⟨"110011", 3, 120, false, none, .WAITING, "u", [⟨"zoe", none, true, true⟩]⟩
    ⟨none, some "zoe", none⟩ "zoe" rfl rfl (by decide) rfl (by decide)).mpr
    ⟨⟨"zoe", none, true, true⟩, by decide, rfl, rfl⟩

/-- C2 (counterexample): a request whose passphrase is present but not 4
characters long, sent against a full lobby, is rejected with BadRequest
by the shape check, not with LobbyFull as the claim requires. -/
theorem c2_counterexample :
    (confirmedPlayers
      ⟨"221122", 2, 90, false, none, .WAITING, "u",
        [⟨"x", none, true, true⟩, ⟨"y", none, false, true⟩]⟩).length =
      (⟨"221122", 2, 90, false, none, .WAITING, "u",
        [⟨"x", none, true, true⟩, ⟨"y", none, false, true⟩]⟩ : Lobby).maxPlayers ∧
    ("12345").length ≠ 4 ∧
    admitJoin
      ⟨"221122", 2, 90, false, none, .WAITING, "u",
        [⟨"x", none, true, true⟩, ⟨"y", none, false, true⟩]⟩
      ⟨some "12345", none, some "zed"⟩ = .reject .badRequest ∧
    admitJoin
      ⟨"221122", 2, 90, false, none, .WAITING, "u",
        [⟨"x", none, true, true⟩, ⟨"y", none, false, true⟩]⟩
      ⟨some "12345", none, some "zed"⟩ ≠ .reject .lobbyFull := by
  decide

/-- C2 (amended): the join checks run in the fixed order passphrase
shape (BadRequest), capacity and status (LobbyFull), 2FA passphrase
(InvalidPassphrase), registered duplicate (AlreadyJoined), anonymous
name shape then availability (BadName, NameTaken); the first failing
check determines the error, so a malformed passphrase against a full
lobby yields BadRequest. -/
theorem c2_first_failing_check_wins (lobby : Lobby) (req : JoinRequest) :
    (passphraseShapeOk req.passphrase = false →
      admitJoin lobby req = .reject .badRequest) ∧
    (passphraseShapeOk req.passphrase = true →
      ((confirmedPlayers lobby).length = lobby.maxPlayers ∨
        lobby.status ≠ GameStatus.WAITING) →
      admitJoin lobby req = .reject .lobbyFull) ∧
    (passphraseShapeOk req.passphrase = true →
      (confirmedPlayers lobby).length ≠ lobby.maxPlayers →
      lobby.status = GameStatus.WAITING →
      lobby.with2FA = true → lobby.passphrase ≠ req.passphrase →
      admitJoin lobby req = .reject .invalidPassphrase) ∧
    (∀ t, req.token = some t →
      passphraseShapeOk req.passphrase = true →
      (confirmedPlayers lobby).length ≠ lobby.maxPlayers →
      lobby.status = GameStatus.WAITING →
      (lobby.with2FA = true → lobby.passphrase = req.passphrase) →
      (lobby.players.filter (fun p => p.registered)).any
        (fun p => p.name == t) = true →
      admitJoin lobby req = .reject .alreadyJoined) ∧
    (∀ n, req.token = none → req.name = some n →
      passphraseShapeOk req.passphrase = true →
      (confirmedPlayers lobby).length ≠ lobby.maxPlayers →
      lobby.status = GameStatus.WAITING →
      (lobby.with2FA = true → lobby.passphrase = req.passphrase) →
      ((nameShapeOk n = false → admitJoin lobby req = .reject .badName) ∧
        (nameShapeOk n = true → checkIfNameFree lobby n = false →
          admitJoin lobby req = .reject .nameTaken))) := by
  refine ⟨?_, ?_, ?_, ?_, ?_⟩
  · intro h
    simp [admitJoin, h]
  · intro h1 h2
    simp [admitJoin, h1, h2]
  · intro h1 hcap hst h2fa hne
    simp [admitJoin, h1, hcap, hst, h2fa, hne]
  · intro t htok h1 hcap hst hpp hd
    have hc3 : ¬(lobby.with2FA = true ∧ lobby.passphrase ≠ req.passphrase) :=
      fun hx => hx.2 (hpp hx.1)
    simp [admitJoin, h1, hcap, hst, hc3, htok, hd]
  · intro n htok hname h1 hcap hst hpp
    have hc3 : ¬(lobby.with2FA = true ∧ lobby.passphrase ≠ req.passphrase) :=
      fun hx => hx.2 (hpp hx.1)
    constructor
    · intro hbad
      simp [admitJoin, h1, hcap, hst, hc3, htok, hname, hbad]
    · intro hgood htaken
      simp [admitJoin, h1, hcap, hst, hc3, htok, hname, hgood, htaken]

theorem c2_first_failing_check_wins_witness :
    admitJoin
      ⟨"220022", 2, 90, true, some "ABCD", .WAITING, "u",
        [⟨"x", none, true, true⟩, ⟨"y", none, false, true⟩]⟩
      ⟨some "WXYZ", none, some "zed"⟩ = .reject .lobbyFull :=
  (c2_first_failing_check_wins
    ⟨"220022", 2, 90, true, some "ABCD", .WAITING, "u",
      [⟨"x", none, true, true⟩, ⟨"y", none, false, true⟩]⟩
    ⟨some "WXYZ", none, some "zed"⟩).2.1 (by decide) (Or.inl (by decide))

/-- C3 (counterexample): a join whose passphrase field is malformed,
against a lobby whose status is not WAITING, is rejected with BadRequest
rather than with LobbyFull as the claim requires. -/
theorem c3_counterexample :
    (⟨"331133", 2, 60, false, none, .PLAYING, "u",
      [⟨"a", none, true, true⟩]⟩ : Lobby).status ≠ GameStatus.WAITING ∧
    admitJoin
      ⟨"331133", 2, 60, false, none, .PLAYING, "u", [⟨"a", none, true, true⟩]⟩
      ⟨some "12", none, some "dan"⟩ = .reject .badRequest ∧
    admitJoin
      ⟨"331133", 2, 60, false, none, .PLAYING, "u", [⟨"a", none, true, true⟩]⟩
      ⟨some "12", none, some "dan"⟩ ≠ .reject .lobbyFull := by
  decide

/-- C3 (amended): on a snapshot satisfying both capacity bounds, a join
whose passphrase field passes the shape validation is rejected with
LobbyFull whenever the confirmed count equals maxPlayers or the status
is not WAITING; an accepted join places an unconfirmed slot and
preserves both bounds. -/
theorem c3_capacity_invariant (lobby : Lobby) (req : JoinRequest) :
    (passphraseShapeOk req.passphrase = true →
      ((confirmedPlayers lobby).length = lobby.maxPlayers ∨
        lobby.status ≠ GameStatus.WAITING) →
      admitJoin lobby req = .reject .lobbyFull) ∧
    (∀ s, admitJoin lobby req = .accept s →
      s.newPlayer.confirmed = false ∧
      ((confirmedPlayers lobby).length ≤ lobby.maxPlayers →
        lobby.players.length ≤ lobby.maxPlayers →
        (s.players.filter (fun p => p.confirmed)).length ≤ lobby.maxPlayers ∧
          s.players.length ≤ lobby.maxPlayers)) := by
  constructor
  · intro h1 h2
    simp [admitJoin, h1, h2]
  · intro s h
    obtain ⟨-, -, hconf, -, hps⟩ := accept_fields h
    refine ⟨hconf, ?_⟩
    intro hcle hlle
    by_cases hlen : lobby.players.length = lobby.maxPlayers
    · rw [if_pos hlen] at hps
      constructor
      · rw [hps]
        calc ((lobby.players.set (lobby.players.findIdx (fun p => !p.confirmed))
                s.newPlayer).filter (fun p => p.confirmed)).length
            = (lobby.players.set (lobby.players.findIdx (fun p => !p.confirmed))
                s.newPlayer).countP (fun p => p.confirmed) := by
              rw [← List.countP_eq_length_filter]
          _ ≤ lobby.players.countP (fun p => p.confirmed) :=
              countP_set_le _ _ (by simpa using hconf) _ _
          _ = (lobby.players.filter (fun p => p.confirmed)).length := by
              rw [List.countP_eq_length_filter]
          _ ≤ lobby.maxPlayers := hcle
      · rw [hps, List.length_set]
        exact hlle
    · rw [if_neg hlen] at hps
      constructor
      · rw [hps, List.filter_append]
        have hnil : [s.newPlayer].filter (fun p => p.confirmed) = [] := by
          simp [List.filter_cons, hconf]
        rw [hnil, List.append_nil]
        simpa [confirmedPlayers] using hcle
      · rw [hps, List.length_append]
        simp only [List.length_cons, List.length_nil]
        omega

theorem c3_capacity_invariant_witness :
    admitJoin
      ⟨"330033", 5, 120, false, none, .PLAYING, "u", [⟨"p", none, true, true⟩]⟩
      ⟨none, none, some "q"⟩ = .reject .lobbyFull :=
  (c3_capacity_invariant
    ⟨"330033", 5, 120, false, none, .PLAYING, "u", [⟨"p", none, true, true⟩]⟩
    ⟨none, none, some "q"⟩).1 rfl (Or.inr (by decide))

/-- C6: the name route reports a name taken iff a confirmed slot holds
exactly that name, and since the anonymous join path consults the same
checkIfNameFree, a name the route reports free is never rejected with
NameTaken by a join on the same snapshot. -/
theorem c6_checkName_join_agree (repo : List Lobby) (pin : String) (lobby : Lobby)
    (n : String) (hfind : findByPin repo pin = some lobby) :
    (nameRoute repo pin (some n) = .taken ↔
      ∃ p ∈ lobby.players, p.confirmed = true ∧ p.name = n) ∧
    (nameRoute repo pin (some n) = .free →
      ∀ req : JoinRequest, req.token = none → req.name = some n →
        admitJoin lobby req ≠ .reject .nameTaken) := by
  constructor
  · by_cases hc : checkIfNameFree lobby n = false
    · constructor
      · intro _
        exact (checkIfNameFree_false_iff lobby n).mp hc
      · intro _
        simp [nameRoute, hfind, hc]
    · constructor
      · intro htk
        exfalso
        simp [nameRoute, hfind, hc] at htk
      · intro hex
        exact absurd ((checkIfNameFree_false_iff lobby n).mpr hex) hc
  · intro hfree req htok hname hrej
    have hcfree : checkIfNameFree lobby n = true := by
      by_cases hc : checkIfNameFree lobby n = false
      · exfalso
        simp [nameRoute, hfind, hc] at hfree
      · simpa using hc
    simp only [admitJoin, htok, hname] at hrej
    split at hrej
    · simp at hrej
    split at hrej
    · simp at hrej
    split at hrej
    · simp at hrej
    split at hrej
    · simp at hrej
    split at hrej
    · rename_i hTk
      rw [hcfree] at hTk
      simp at hTk
    · simp [placeSlot] at hrej

theorem c6_checkName_join_agree_witness :
    admitJoin
      ⟨"660066", 3, 120, false, none, .WAITING, "u", [⟨"max", none, false, true⟩]⟩
      ⟨none, none, some "liz"⟩ ≠ .reject .nameTaken :=
  (c6_checkName_join_agree
    [⟨"660066", 3, 120, false, none, .WAITING, "u", [⟨"max", none, false, true⟩]⟩]
    "660066"
    ⟨"660066", 3, 120, false, none, .WAITING, "u", [⟨"max", none, false, true⟩]⟩
    "liz" (by decide)).2 (by decide) ⟨none, none, some "liz"⟩ rfl rfl

/-- C8: deletion by a non-owner is Unauthorized, changes nothing and
broadcasts nothing; deletion by the owner removes the document (so a
subsequent inspect of the pin is NotFound) and broadcasts the
lobby_closed closure exactly on the successful delete. -/
theorem c8_delete_owner_gate (repo : List Lobby) (pin : String) (uid : String)
    (lobby : Lobby) (hfind : findByPin repo pin = some lobby)
    (huniq : (repo.filter (fun l => l.pin == pin)).length ≤ 1) :
    (lobby.owner ≠ uid →
      deleteRoute repo pin uid true = (.unauthorized, repo, []) ∧
      deleteRoute repo pin uid false = (.unauthorized, repo, [])) ∧
    (lobby.owner = uid →
      deleteRoute repo pin uid true =
        (.deleted, repo.eraseP (fun l => l.pin == pin),
          [{ pin := pin, reason := "lobby_closed" }]) ∧
      inspectRoute (repo.eraseP (fun l => l.pin == pin)) pin = .notFound ∧
      deleteRoute repo pin uid false = (.serverError, repo, [])) := by
  constructor
  · intro hne
    constructor <;> simp [deleteRoute, hfind, hne]
  · intro heq
    refine ⟨by simp [deleteRoute, hfind, heq], ?_, by simp [deleteRoute, hfind, heq]⟩
    have herase := find?_eraseP_none (fun l => l.pin == pin) repo huniq
    simp [inspectRoute, findByPin, herase]

theorem c8_delete_owner_gate_witness :
    deleteRoute
      [⟨"880088", 2, 60, false, none, .WAITING, "boss", [⟨"boss", none, true, true⟩]⟩]
      "880088" "boss" true =
      (.deleted,
        ([⟨"880088", 2, 60, false, none, .WAITING, "boss",
            [⟨"boss", none, true, true⟩]⟩] : List Lobby).eraseP
          (fun l => l.pin == "880088"),
        [{ pin := "880088", reason := "lobby_closed" }]) ∧
    inspectRoute
      (([⟨"880088", 2, 60, false, none, .WAITING, "boss",
          [⟨"boss", none, true, true⟩]⟩] : List Lobby).eraseP
        (fun l => l.pin == "880088"))
      "880088" = .notFound ∧
    deleteRoute
      [⟨"880088", 2, 60, false, none, .WAITING, "boss", [⟨"boss", none, true, true⟩]⟩]
      "880088" "boss" false =
      (.serverError,
        [⟨"880088", 2, 60, false, none, .WAITING, "boss", [⟨"boss", none, true, true⟩]⟩],
        []) :=
  (c8_delete_owner_gate
    [⟨"880088", 2, 60, false, none, .WAITING, "boss", [⟨"boss", none, true, true⟩]⟩]
    "880088" "boss"
    ⟨"880088", 2, 60, false, none, .WAITING, "boss", [⟨"boss", none, true, true⟩]⟩
    (by decide) (by decide)).2 rfl

/-- C10: against an existing lobby, a present passphrase field that is
not exactly 4 characters long is rejected with BadRequest before any
capacity, status or passphrase-correctness check, for every lobby
configuration; an absent passphrase field never produces the BadRequest
shape rejection. -/
theorem c10_passphrase_shape_first (repo : List Lobby) (pin : String)
    (req : JoinRequest) (lobby : Lobby)
    (hfind : findByPin repo pin = some lobby) :
    (∀ s, req.passphrase = some s → s.length ≠ 4 →
      (joinRoute repo pin req).1 = .reject .badRequest) ∧
    (req.passphrase = none →
      (joinRoute repo pin req).1 ≠ .reject .badRequest) := by
  constructor
  · intro s hs hlen
    have hshape : passphraseShapeOk req.passphrase = false := by
      simp [passphraseShapeOk, hs, hlen]
    simp [joinRoute, hfind, admitJoin, hshape]
  · intro hnone hbad
    have hshape : passphraseShapeOk req.passphrase = true := by
      simp [passphraseShapeOk, hnone]
    have hne : admitJoin lobby req ≠ .reject .badRequest := by
      intro hbad2
      unfold admitJoin at hbad2
      split at hbad2
      · rename_i hcond
        rw [hshape] at hcond
        exact absurd hcond (by simp)
      split at hbad2
      · simp at hbad2
      split at hbad2
      · simp at hbad2
      split at hbad2
      · split at hbad2
        · simp at hbad2
        · simp [placeSlot] at hbad2
      · split at hbad2
        · simp at hbad2
        · split at hbad2
          · simp at hbad2
          split at hbad2
          · simp at hbad2
          · simp [placeSlot] at hbad2
    apply hne
    simp only [joinRoute, hfind] at hbad
    rcases ha : admitJoin lobby req with e | s
    · rw [ha] at hbad
      simp at hbad
      rw [hbad]
    · rw [ha] at hbad
      simp at hbad

theorem c10_passphrase_shape_first_witness :
    (joinRoute
      [⟨"101010", 4, 120, true, some "QZKP", .WAITING, "u",
        [⟨"o", none, true, true⟩]⟩]
      "101010" ⟨some "123", none, none⟩).1 = .reject .badRequest :=
  (c10_passphrase_shape_first
    [⟨"101010", 4, 120, true, some "QZKP", .WAITING, "u", [⟨"o", none, true, true⟩]⟩]
    "101010" ⟨some "123", none, none⟩
    ⟨"101010", 4, 120, true, some "QZKP", .WAITING, "u", [⟨"o", none, true, true⟩]⟩
    (by decide)).1 "123" rfl (by decide)
